import Mathlib

/-!
Shallow embedding of the HPF scoring module
(src/scoring/hpf_scoring.py) of fabric8-analytics/poc-maven-stack-analysis.

Python floats are modelled as rationals.  The edward/tensorflow Poisson and
Gamma evaluations are external library collaborators, not code of this
repository: the model state carries their outputs as data (the dummy_result
field holds the precomputed fallback score matrix of init line 63, and the
poisson_prob field stands for the evaluation used on the matched branch of
folding_in).  Everything else is translated line by line from the source.
-/

namespace HPF

/-- Errors a call into the scoring module can raise.  The Python code can hit
ZeroDivisionError inside predict (line 159); EmptyInputError is the guard the
specification describes, which appears nowhere in the code. -/
inductive PyError
  | zeroDivisionError
  | emptyInputError
deriving DecidableEq

/-- One entry of the companion recommendation list built by
filter_recommendation (lines 230 to 234). -/
structure Recommendation where
  cooccurrence_probability : ℚ
  package_name : String
  topic_list : List String
deriving DecidableEq

/-- Python dict lookup for a dict built by inserting the pairs of the list in
order: a later binding of the same key overwrites an earlier one, so the
lookup prefers the later pairs. -/
def dictLookup {α β : Type} [BEq α] : List (α × β) → α → Option β
  | [], _ => none
  | p :: rest, k =>
    match dictLookup rest k with
    | some v => some v
    | none => if p.1 == k then some p.2 else none

/-- The dict comprehension of load_jsons line 128, building id_package_dict
from package_id_dict by swapping each pair; combined with dictLookup this is
exactly the Python dict it builds, duplicate ids overwriting silently. -/
def invertDict (d : List (String × Nat)) : List (Nat × String) :=
  d.map (fun p => (p.2, p.1))

/-- The loaded model state of HPFScoring: the matrices, the dictionaries and
the precomputed fallback scores.  Matrices are lists of rows of rationals.
The poisson_prob field abstracts the external tensorflow evaluation
Poisson(theta row).prob(beta) of folding_in lines 195 to 198. -/
structure Model where
  package_id_dict : List (String × Nat)
  manifest_id_dict : List (Int × List Nat)
  theta : List (List ℚ)
  beta : List (List ℚ)
  dummy_result : List (List ℚ)
  poisson_prob : List ℚ → List (List ℚ) → List (List ℚ)

/-- load_jsons line 128: the id to name dictionary. -/
def Model.id_package_dict (m : Model) : List (Nat × String) :=
  invertDict m.package_id_dict

/-- init line 62: packages = beta.shape(0), the number of package rows. -/
def Model.packages (m : Model) : Nat := m.beta.length

/-- Python set equality between a manifest dependency set and the input id
set (match_manifest line 175). -/
def setEq (a b : List Nat) : Bool :=
  a.all (fun x => b.contains x) && b.all (fun x => a.contains x)

/-- match_manifest, lines 168 to 181: linear scan over manifest_id_dict, the
first dependency set equal to the input set (as sets) yields its manifest id,
otherwise the for-else sets manifest_id = -1. -/
def Model.match_manifest (m : Model) (input_id_set : List Nat) : Int :=
  match m.manifest_id_dict.find? (fun p => setEq p.2 input_id_set) with
  | some p => p.1
  | none => -1

/-- The embedding of a Python int appearing in rational arithmetic, written
with mkRat so that the kernel can evaluate it on concrete inputs. -/
def natToQ (n : Nat) : ℚ := mkRat (Int.ofNat n) 1

/-- Python float division on rationals, written with Rat.divInt so that the
kernel can evaluate it on concrete inputs; qdiv_eq_div below shows it is the
field division of the rationals. -/
def qdiv (a b : ℚ) : ℚ := Rat.divInt (a.num * b.den) (b.num * a.den)

/-- Python float addition on rationals, kernel evaluable; qadd_eq_add below
shows it is the addition of the rationals. -/
def qadd (a b : ℚ) : ℚ :=
  Rat.divInt (a.num * b.den + b.num * a.den) ((a.den * b.den : Nat))

/-- Python float multiplication on rationals, kernel evaluable; qmul_eq_mul
below shows it is the multiplication of the rationals. -/
def qmul (a b : ℚ) : ℚ := Rat.divInt (a.num * b.num) ((a.den * b.den : Nat))

/-- numpy elementwise sum, kernel evaluable; qsum_eq_sum below shows it is
the sum of the list. -/
def qsum (l : List ℚ) : ℚ := l.foldr qadd 0

/-- numpy row mean, used as result(i).mean() in normalize_result line 213. -/
def rowMean (row : List ℚ) : ℚ := qdiv (qsum row) (natToQ row.length)

/-- normalize_result, lines 202 to 215 with the default array_len = packages:
-1.0 for every id in the input set, the row mean of the raw score matrix for
every other id. -/
def Model.normalize_result (m : Model) (result : List (List ℚ))
    (input_id_set : List Nat) : List ℚ :=
  (List.range m.packages).map
    (fun i => if i ∈ input_id_set then (-1 : ℚ) else rowMean (result.getD i []))

/-- The comparison numpy argsort applies to positions of the score vector. -/
def argLe (result : List ℚ) (i j : Nat) : Prop :=
  result.getD i 0 ≤ result.getD j 0

instance (result : List ℚ) : DecidableRel (argLe result) := fun _ _ =>
  inferInstanceAs (Decidable (_ ≤ _))

/-- result.argsort() of filter_recommendation line 227: the positions of the
score vector ordered by ascending score (ties in an implementation-defined
deterministic order, as in numpy). -/
def argsort (result : List ℚ) : List Nat :=
  List.insertionSort (argLe result) (List.range result.length)

/-- The Python slice l(-k:len(l)): the last k elements, except that k = 0
degenerates to the whole list because -0 is 0. -/
def lastSlice {α : Type} (l : List α) (k : Nat) : List α :=
  if k = 0 then l else l.drop (l.length - k)

/-- highest_indices of filter_recommendation line 227:
result.argsort() sliced from -max_count to len(result). -/
def highest_indices (result : List ℚ) (max_count : Nat) : List Nat :=
  lastSlice (argsort result) max_count

/-- filter_recommendation, lines 217 to 236: for each of the highest scoring
positions, emit the score rescaled by 100, the display name from
id_package_dict, and an empty topic list. -/
def Model.filter_recommendation (m : Model) (result : List ℚ)
    (max_count : Nat) : List Recommendation :=
  (highest_indices result max_count).map (fun package_id =>
    { cooccurrence_probability := qmul (result.getD package_id 0) 100
      package_name := (dictLookup m.id_package_dict package_id).getD ""
      topic_list := ([] : List String) })

/-- folding_in, lines 183 to 200: on no manifest match the precomputed
dummy_result is the raw score matrix, otherwise the Poisson evaluation of the
matched theta row against beta; then normalize and filter. -/
def Model.folding_in (m : Model) (input_id_set : List Nat)
    (max_count : Nat) : List Recommendation :=
  let manifest_id := m.match_manifest input_id_set
  let result :=
    if manifest_id = -1 then m.dummy_result
    else m.poisson_prob (m.theta.getD manifest_id.toNat []) m.beta
  let normalised := m.normalize_result result input_id_set
  m.filter_recommendation normalised max_count

/-- The Python truthiness test of predict line 154, applied to the result of
package_id_dict.get(package_name): None and the id 0 are both falsy. -/
def pyTruthy : Option Nat → Bool
  | none => false
  | some n => n != 0

/-- The resolution loop of predict, lines 152 to 158: names whose looked-up
id is truthy join the input id set and get an empty topic entry, all other
names join missing_packages. -/
def Model.resolve (m : Model) :
    List String → List Nat × List (String × List String) × List String
  | [] => ([], [], [])
  | name :: rest =>
    let r := m.resolve rest
    if pyTruthy (dictLookup m.package_id_dict name) then
      ((dictLookup m.package_id_dict name).getD 0 :: r.1,
       (name, ([] : List String)) :: r.2.1, r.2.2)
    else
      (r.1, r.2.1, name :: r.2.2)

/-- predict, lines 136 to 166: deduplicate the input, resolve names, compare
the missing fraction against the threshold, and either fold in or return the
empty recommendation list.  An empty input makes line 159 divide by zero. -/
def Model.predict (m : Model) (threshold : ℚ) (max_count : Nat)
    (input_stack : List String) :
    Except PyError
      (List Recommendation × List (String × List String) × List String) :=
  let stack := input_stack.dedup
  let r := m.resolve stack
  if stack.length = 0 then
    .error .zeroDivisionError
  else if qdiv (natToQ r.2.2.length) (natToQ stack.length) < threshold then
    .ok (m.folding_in r.1 max_count, r.2.1, r.2.2)
  else
    .ok ([], r.2.1, r.2.2)

/-- Load-time failures: a sparse matrix blob that does not decode. -/
inductive LoadErr
  | corruptModel
deriving DecidableEq

/-- load_s3, lines 88 to 106, as a function of the two decode outcomes,
returning the loaded pair together with the list of staging files left under
tmp.  Each download writes the staging file; os.remove runs only after the
corresponding sparse.load_npz returns, so a decode failure propagates with
the staging file still present. -/
def load_s3 (decode_user decode_item : Except LoadErr (List (List ℚ))) :
    Except LoadErr (List (List ℚ) × List (List ℚ)) × List String :=
  let fs1 := ["/tmp/user_matrix.npz"]
  match decode_user with
  | .error e => (.error e, fs1)
  | .ok theta =>
    let fs2 := fs1.erase "/tmp/user_matrix.npz"
    let fs3 := fs2 ++ ["/tmp/item_matrix.npz"]
    match decode_item with
    | .error e => (.error e, fs3)
    | .ok beta => (.ok (theta, beta), fs3.erase "/tmp/item_matrix.npz")

/-- The model of the specification scenario: three packages a, b, c with ids
0, 1, 2, one manifest row 0 with dependency set containing 0 and 1, and
strictly positive placeholder scores. -/
def scenarioModel : Model :=
  { package_id_dict := [("a", 0), ("b", 1), ("c", 2)]
    manifest_id_dict := [(0, [0, 1])]
    theta := [[1]]
    beta := [[1], [1], [1]]
    dummy_result := [[1], [1], [1]]
    poisson_prob := fun _ _ => [[1], [1], [1]] }

/-- A three package model with no manifest patterns, so every input takes the
fallback branch. -/
def cModel3 : Model :=
  { package_id_dict := [("p0", 0), ("p1", 1), ("p2", 2)]
    manifest_id_dict := []
    theta := []
    beta := [[1], [1], [1]]
    dummy_result := [[1], [1], [1]]
    poisson_prob := fun _ _ => [[1], [1], [1]] }

/-- A model holding just the manifest pattern of claim C5. -/
def manifestModel : Model :=
  { package_id_dict := []
    manifest_id_dict := [(0, [1, 2])]
    theta := []
    beta := []
    dummy_result := []
    poisson_prob := fun _ _ => [] }

/-! Helper lemmas -/

theorem natToQ_eq_cast (n : Nat) : natToQ n = (n : ℚ) := by
  simp [natToQ]

theorem qdiv_eq_div (a b : ℚ) : qdiv a b = a / b := by
  rw [qdiv, Rat.divInt_eq_div]
  push_cast
  rcases eq_or_ne b 0 with hb | hb
  · subst hb; simp
  · have hbn : (b.num : ℚ) ≠ 0 := Int.cast_ne_zero.mpr (Rat.num_ne_zero.mpr hb)
    have had : ((a.den : ℚ)) ≠ 0 := Nat.cast_ne_zero.mpr a.den_nz
    have hbd : ((b.den : ℚ)) ≠ 0 := Nat.cast_ne_zero.mpr b.den_nz
    have ha' : (a.num : ℚ) = a * (a.den : ℚ) :=
      (div_eq_iff had).mp (Rat.num_div_den a)
    have hb' : (b.num : ℚ) = b * (b.den : ℚ) :=
      (div_eq_iff hbd).mp (Rat.num_div_den b)
    rw [div_eq_div_iff (mul_ne_zero hbn had) hb]
    rw [ha', hb']
    ring

theorem qadd_eq_add (a b : ℚ) : qadd a b = a + b := by
  rw [qadd, Rat.divInt_eq_div]
  push_cast
  have had : ((a.den : ℚ)) ≠ 0 := Nat.cast_ne_zero.mpr a.den_nz
  have hbd : ((b.den : ℚ)) ≠ 0 := Nat.cast_ne_zero.mpr b.den_nz
  have ha' : (a.num : ℚ) = a * (a.den : ℚ) :=
    (div_eq_iff had).mp (Rat.num_div_den a)
  have hb' : (b.num : ℚ) = b * (b.den : ℚ) :=
    (div_eq_iff hbd).mp (Rat.num_div_den b)
  rw [div_eq_iff (mul_ne_zero had hbd), ha', hb']
  ring

theorem qmul_eq_mul (a b : ℚ) : qmul a b = a * b := by
  rw [qmul, Rat.divInt_eq_div]
  push_cast
  have had : ((a.den : ℚ)) ≠ 0 := Nat.cast_ne_zero.mpr a.den_nz
  have hbd : ((b.den : ℚ)) ≠ 0 := Nat.cast_ne_zero.mpr b.den_nz
  have ha' : (a.num : ℚ) = a * (a.den : ℚ) :=
    (div_eq_iff had).mp (Rat.num_div_den a)
  have hb' : (b.num : ℚ) = b * (b.den : ℚ) :=
    (div_eq_iff hbd).mp (Rat.num_div_den b)
  rw [div_eq_iff (mul_ne_zero had hbd), ha', hb']
  ring

theorem qsum_eq_sum (l : List ℚ) : qsum l = l.sum := by
  induction l with
  | nil => rfl
  | cons x xs ih => simp [qsum, qadd_eq_add, List.sum_cons] at ih ⊢; rw [ih]

theorem rowMean_eq (row : List ℚ) : rowMean row = row.sum / (row.length : ℚ) := by
  rw [rowMean, qdiv_eq_div, qsum_eq_sum, natToQ_eq_cast]

theorem rowMean_nonneg (row : List ℚ) (h : ∀ x ∈ row, (0 : ℚ) ≤ x) :
    0 ≤ rowMean row := by
  rw [rowMean_eq]
  exact div_nonneg (List.sum_nonneg h) (Nat.cast_nonneg _)

theorem argsort_sorted (result : List ℚ) :
    List.Sorted (argLe result) (argsort result) := by
  haveI h1 : IsTotal Nat (argLe result) := ⟨fun a b => le_total _ _⟩
  haveI h2 : IsTrans Nat (argLe result) := ⟨fun a b c hab hbc => le_trans hab hbc⟩
  exact List.sorted_insertionSort _ _

theorem argsort_perm (result : List ℚ) :
    (argsort result).Perm (List.range result.length) :=
  List.perm_insertionSort _ _

theorem argsort_length (result : List ℚ) :
    (argsort result).length = result.length := by
  rw [(argsort_perm result).length_eq, List.length_range]

theorem argsort_nodup (result : List ℚ) : (argsort result).Nodup :=
  (argsort_perm result).nodup_iff.mpr (List.nodup_range _)

theorem mem_argsort (result : List ℚ) (i : Nat) :
    i ∈ argsort result ↔ i < result.length := by
  rw [(argsort_perm result).mem_iff, List.mem_range]

theorem lastSlice_sublist {α : Type} (l : List α) (k : Nat) :
    (lastSlice l k).Sublist l := by
  unfold lastSlice
  split
  · exact List.Sublist.refl l
  · exact List.drop_sublist _ _

theorem highest_indices_mem (result : List ℚ) (mc : Nat) (i : Nat)
    (h : i ∈ highest_indices result mc) : i < result.length := by
  rw [← mem_argsort]
  exact (lastSlice_sublist _ _).mem h

theorem normalize_length (m : Model) (result : List (List ℚ))
    (input : List Nat) :
    (m.normalize_result result input).length = m.packages := by
  simp [Model.normalize_result]

theorem normalize_getD (m : Model) (result : List (List ℚ)) (input : List Nat)
    (i : Nat) (hi : i < m.packages) :
    (m.normalize_result result input).getD i 0 =
      if i ∈ input then (-1 : ℚ) else rowMean (result.getD i []) := by
  unfold Model.normalize_result
  rw [List.getD_eq_getElem?_getD, List.getElem?_map, List.getElem?_range hi]
  rfl

theorem filter_recommendation_length (m : Model) (result : List ℚ) (mc : Nat)
    (h : 1 ≤ mc) :
    (m.filter_recommendation result mc).length = min mc result.length := by
  unfold Model.filter_recommendation highest_indices lastSlice
  rw [List.length_map]
  rw [if_neg (by omega : ¬ mc = 0), List.length_drop, argsort_length]
  omega

theorem mem_of_dictLookup' {α β : Type} [BEq α] [LawfulBEq α]
    {l : List (α × β)} {k : α} {v : β} (h : dictLookup l k = some v) :
    (k, v) ∈ l := by
  induction l with
  | nil => simp [dictLookup] at h
  | cons p rest ih =>
    cases hr : dictLookup rest k with
    | some w =>
      have h' : dictLookup (p :: rest) k = some w := by rw [dictLookup, hr]
      rw [h'] at h
      have hw : w = v := by injection h
      subst hw
      exact List.mem_cons_of_mem _ (ih hr)
    | none =>
      have h' : dictLookup (p :: rest) k =
          if p.1 == k then some p.2 else none := by rw [dictLookup, hr]
      rw [h'] at h
      by_cases hk : (p.1 == k) = true
      · rw [if_pos hk] at h
        have hp2 : p.2 = v := by injection h
        have hp1 : p.1 = k := by simpa using hk
        have hpv : p = (k, v) := by
          obtain ⟨p1, p2⟩ := p
          simp_all
        rw [← hpv]
        exact List.mem_cons_self _ _
      · rw [if_neg hk] at h
        cases h

theorem dictLookup_of_mem {α β : Type} [BEq α] [LawfulBEq α]
    {l : List (α × β)} (hnd : (l.map Prod.fst).Nodup) {p : α × β}
    (hp : p ∈ l) : dictLookup l p.1 = some p.2 := by
  induction l with
  | nil => cases hp
  | cons q rest ih =>
    rw [List.map_cons, List.nodup_cons] at hnd
    rcases List.mem_cons.mp hp with hq | htl
    · subst hq
      have hnone : dictLookup rest p.1 = none := by
        cases h : dictLookup rest p.1 with
        | none => rfl
        | some v =>
          exact absurd (List.mem_map_of_mem Prod.fst (mem_of_dictLookup' h))
            hnd.1
      rw [dictLookup, hnone]
      simp
    · rw [dictLookup, ih hnd.2 htl]

theorem setEq_iff (a b : List Nat) :
    setEq a b = true ↔ ∀ x : Nat, x ∈ a ↔ x ∈ b := by
  unfold setEq
  rw [Bool.and_eq_true, List.all_eq_true, List.all_eq_true]
  constructor
  · rintro ⟨h1, h2⟩ x
    constructor
    · intro hx; simpa using h1 x hx
    · intro hx; simpa using h2 x hx
  · intro h
    constructor
    · intro x hx; simpa using (h x).mp hx
    · intro x hx; simpa using (h x).mpr hx

theorem half_eq_mkRat : (1 / 2 : ℚ) = mkRat 1 2 := by
  rw [Rat.mkRat_eq_div]; norm_num

/-! Claims -/

/-- Claim C1: on the scenario model (a maps to 0, b to 1, c to 2, one
manifest row with ids 0 and 1, threshold one half) the call
predict(a, b) does not behave as the specification scenario says: because
line 154 tests the id with Python truthiness, the id 0 is treated as
missing, the missing fraction reaches the threshold, and the call returns no
recommendations and missing_packages = (a), contradicting the documented
meaning of missing_packages (packages unknown to the model). -/
theorem C1_predict_scenario_ab :
    scenarioModel.predict (1 / 2) 5 ["a", "b"] =
      .ok ([], [("b", [])], ["a"]) := by
  rw [half_eq_mkRat]
  rfl

/-- Claim C2 counterexample: on the empty input stack, predict fails with
ZeroDivisionError coming from the division at line 159, not with the
EmptyInputError guard the specification describes (which exists nowhere in
the code); in particular the code does divide by zero. -/
theorem C2_empty_input_zero_division :
    scenarioModel.predict (1 / 2) 5 [] = .error .zeroDivisionError
    ∧ PyError.zeroDivisionError ≠ PyError.emptyInputError := by
  exact ⟨rfl, by decide⟩

/-- Claim C2 amended: for the empty input stack predict fails by raising
ZeroDivisionError at the missing-ratio division itself, for every model,
threshold and maximum count; there is no EmptyInputError guard before it. -/
theorem C2_empty_input_raises (m : Model) (threshold : ℚ) (mc : Nat) :
    m.predict threshold mc [] = .error .zeroDivisionError := rfl

/-- Claim C4: on the scenario model with input (a, z) and threshold one
half, the specification says missing_packages equals exactly the unresolved
names, that is (z); the code also puts the resolvable name a (id 0, falsy at
line 154) into missing_packages and returns missing_packages = (a, z) with
the empty recommendation list. -/
theorem C4_predict_scenario_az :
    scenarioModel.predict (1 / 2) 5 ["a", "z"] =
      .ok ([], [], ["a", "z"]) := by
  rw [half_eq_mkRat]
  rfl

/-- Claim C5: match_manifest returns a manifest id only when that manifest
pattern equals the input id set exactly, returns -1 when no pattern is
set-equal to the input, and in particular the pattern with ids 1 and 2
matches neither the input with ids 1, 2, 3 nor the input with the single
id 1. -/
theorem C5_match_manifest_exact (m : Model) (s : List Nat) :
    (m.match_manifest s ≠ -1 →
      ∃ p ∈ m.manifest_id_dict, p.1 = m.match_manifest s ∧
        ∀ x : Nat, x ∈ p.2 ↔ x ∈ s)
    ∧ ((∀ p ∈ m.manifest_id_dict, ¬ ∀ x : Nat, x ∈ p.2 ↔ x ∈ s) →
        m.match_manifest s = -1)
    ∧ manifestModel.match_manifest [1, 2, 3] = -1
    ∧ manifestModel.match_manifest [1] = -1 := by
  refine ⟨?_, ?_, by rfl, by rfl⟩
  · intro hne
    unfold Model.match_manifest at hne ⊢
    cases hf : m.manifest_id_dict.find? (fun p => setEq p.2 s) with
    | none => rw [hf] at hne; exact absurd rfl hne
    | some p =>
      have hseq : setEq p.2 s = true := by simpa using List.find?_some hf
      exact ⟨p, List.mem_of_find?_eq_some hf, rfl, (setEq_iff _ _).mp hseq⟩
  · intro hall
    unfold Model.match_manifest
    cases hf : m.manifest_id_dict.find? (fun p => setEq p.2 s) with
    | none => rfl
    | some p =>
      have hseq : setEq p.2 s = true := by simpa using List.find?_some hf
      exact absurd ((setEq_iff _ _).mp hseq)
        (hall p (List.mem_of_find?_eq_some hf))

/-- Claim C5 witness: the single pattern of manifestModel is not set-equal
to the input id 3, so match_manifest returns -1. -/
theorem C5_match_manifest_exact_witness :
    manifestModel.match_manifest [3] = -1 := by
  refine (C5_match_manifest_exact manifestModel [3]).2.1 ?_
  intro p hp
  have hp' : p = ((0 : Int), [1, 2]) := by simpa [manifestModel] using hp
  subst hp'
  intro hall
  have h1 := (hall 1).mp (by simp)
  simp at h1

/-- Claim C6 counterexample: for the non-injective forward dictionary
mapping a to 0 and b to 0, load_jsons builds the inverse silently (the later
pair wins) instead of failing with CorruptModelError, and the round trip of
the name a gives b. -/
theorem C6_noninjective_silent :
    dictLookup [("a", 0), ("b", 0)] "a" = some 0
    ∧ dictLookup (invertDict [("a", 0), ("b", 0)]) 0 = some "b"
    ∧ ("b" : String) ≠ "a" := by
  exact ⟨rfl, rfl, by decide⟩

/-- Claim C6 amended: when the forward name-to-id dictionary has distinct
names and injective ids, id_package_dict is exactly its inverse: the lookup
round trip holds in both directions for every loaded pair.  A non-injective
forward mapping is not rejected (no CorruptModelError exists in the code);
the later name silently overwrites the earlier one. -/
theorem C6_inverse_roundtrip (d : List (String × Nat))
    (hkeys : (d.map Prod.fst).Nodup) (hids : (d.map Prod.snd).Nodup) :
    ∀ name id, dictLookup d name = some id ↔
      dictLookup (invertDict d) id = some name := by
  intro name id
  have hinv : (invertDict d).map Prod.fst = d.map Prod.snd := by
    simp [invertDict, List.map_map]
  constructor
  · intro h
    have hm : (name, id) ∈ d := mem_of_dictLookup' h
    have hm' : (id, name) ∈ invertDict d :=
      List.mem_map_of_mem (fun p => (p.2, p.1)) hm
    have hres := dictLookup_of_mem (by rw [hinv]; exact hids) hm'
    simpa using hres
  · intro h
    have hm' : (id, name) ∈ invertDict d := mem_of_dictLookup' h
    have hm : (name, id) ∈ d := by
      rw [invertDict, List.mem_map] at hm'
      obtain ⟨⟨p1, p2⟩, hp, heq⟩ := hm'
      have h1 : p2 = id := congrArg Prod.fst heq
      have h2 : p1 = name := congrArg Prod.snd heq
      subst h1; subst h2
      exact hp
    have hres := dictLookup_of_mem hkeys hm
    simpa using hres

/-- Claim C6 witness: on the injective dictionary (a to 0, b to 1) the
round trip back from the id 0 yields the name a. -/
theorem C6_inverse_roundtrip_witness :
    dictLookup (invertDict [("a", 0), ("b", 1)]) 0 = some "a" :=
  (C6_inverse_roundtrip [("a", 0), ("b", 1)] (by decide) (by decide)
    "a" 0).mp (by decide)

/-- Claim C7: with the configured maximum count positive as the
specification requires, filter_recommendation returns at most max_count
entries, and at least min(max_count, packages - excluded) entries, for any
score vector and any excluded id set. -/
theorem C7_filter_length_bounds (m : Model) (result : List ℚ)
    (excluded : List Nat) (mc : Nat) (hmc : 1 ≤ mc) :
    (m.filter_recommendation result mc).length ≤ mc
    ∧ min mc (result.length - excluded.length) ≤
        (m.filter_recommendation result mc).length := by
  have h := filter_recommendation_length m result mc hmc
  omega

/-- Claim C7 witness: concrete bounds on a three entry score vector with
max_count 2 and one excluded id. -/
theorem C7_filter_length_bounds_witness :
    (cModel3.filter_recommendation [1, -1, -1] 2).length ≤ 2
    ∧ min 2 (([1, -1, -1] : List ℚ).length - ([1] : List Nat).length) ≤
        (cModel3.filter_recommendation [1, -1, -1] 2).length :=
  C7_filter_length_bounds cModel3 [1, -1, -1] [1] 2 (by decide)

/-- Claim C8: the recommendation list of filter_recommendation is ordered by
ascending score (lowest of the top first), and every entry carries the
display name obtained from id_package_dict for its package id, an empty
topic list, and the score of that id rescaled by one hundred. -/
theorem C8_filter_sorted_fields (m : Model) (result : List ℚ) (mc : Nat) :
    List.Sorted (· ≤ ·)
      ((m.filter_recommendation result mc).map
        Recommendation.cooccurrence_probability)
    ∧ ∀ r ∈ m.filter_recommendation result mc,
        r.topic_list = [] ∧
        ∃ pid, pid < result.length ∧
          r.package_name = (dictLookup m.id_package_dict pid).getD "" ∧
          r.cooccurrence_probability = result.getD pid 0 * 100 := by
  constructor
  · have hs : List.Pairwise (argLe result) (highest_indices result mc) :=
      List.Pairwise.sublist (lastSlice_sublist _ _) (argsort_sorted result)
    unfold Model.filter_recommendation
    rw [List.map_map]
    refine List.Pairwise.map _ ?_ hs
    intro a b hab
    show qmul (result.getD a 0) 100 ≤ qmul (result.getD b 0) 100
    rw [qmul_eq_mul, qmul_eq_mul]
    exact mul_le_mul_of_nonneg_right hab (by norm_num)
  · intro r hr
    unfold Model.filter_recommendation at hr
    obtain ⟨pid, hpid, heq⟩ := List.mem_map.mp hr
    subst heq
    exact ⟨rfl, pid, highest_indices_mem result mc pid hpid, rfl,
      qmul_eq_mul _ _⟩

/-- Claim C9: when no manifest pattern matches the input id set, folding_in
scores against the precomputed model constant dummy_result instead of a
theta row, so with a loaded package row and a positive maximum count the
accepted input still produces a nonempty recommendation list. -/
theorem C9_folding_in_fallback (m : Model) (s : List Nat) (mc : Nat)
    (hmatch : m.match_manifest s = -1) (hmc : 1 ≤ mc)
    (hpk : 1 ≤ m.packages) :
    m.folding_in s mc =
      m.filter_recommendation (m.normalize_result m.dummy_result s) mc
    ∧ 1 ≤ (m.folding_in s mc).length := by
  have heq : m.folding_in s mc =
      m.filter_recommendation (m.normalize_result m.dummy_result s) mc := by
    simp [Model.folding_in, hmatch]
  refine ⟨heq, ?_⟩
  rw [heq, filter_recommendation_length _ _ _ hmc, normalize_length]
  omega

/-- Claim C9 witness: the model cModel3 has no manifest patterns, so the
input with ids 1 and 2 is unmatched and folds in against dummy_result,
yielding a nonempty recommendation list. -/
theorem C9_folding_in_fallback_witness :
    cModel3.folding_in [1, 2] 1 =
      cModel3.filter_recommendation
        (cModel3.normalize_result cModel3.dummy_result [1, 2]) 1
    ∧ 1 ≤ (cModel3.folding_in [1, 2] 1).length :=
  C9_folding_in_fallback cModel3 [1, 2] 1 (by rfl) (by decide) (by decide)

/-- Claim C3 counterexample: on a three package model with no manifests and
maximum count five, the input stack with the resolved ids 1 and 2 gets a
recommendation list that contains the input packages p1 and p2 themselves
(with the sentinel score -1 rescaled to -100), because argsort takes the
last five of only three positions; so an input package id can appear in the
returned recommendation list. -/
theorem C3_input_package_recommended :
    cModel3.predict (1 / 2) 5 ["p1", "p2"] =
      .ok ([{ cooccurrence_probability := -100, package_name := "p1",
              topic_list := [] },
            { cooccurrence_probability := -100, package_name := "p2",
              topic_list := [] },
            { cooccurrence_probability := 100, package_name := "p0",
              topic_list := [] }],
           [("p1", []), ("p2", [])], [])
    ∧ dictLookup cModel3.package_id_dict "p1" = some 1 := by
  constructor
  · rw [half_eq_mkRat]
    rfl
  · rfl

/-- Claim C3 amended: normalize_result assigns the sentinel -1 to every
input package id and the row mean of the raw scores to every other package;
and whenever the raw scores are nonnegative (as probabilities are) and at
least max_count positive-count packages are not excluded, the filter
selects no input package.  When max_count exceeds the number of
non-excluded packages the sentinel entries do reach the output, as the
counterexample shows. -/
theorem C3_normalize_excludes_filter
    (m : Model) (result : List (List ℚ)) (input : List Nat) (mc : Nat)
    (hnn : ∀ row ∈ result, ∀ x ∈ row, (0 : ℚ) ≤ x)
    (hlen : result.length = m.packages)
    (hmc : 1 ≤ mc)
    (hcount : mc ≤ ((List.range m.packages).filter
        (fun i => !(input.contains i))).length) :
    (∀ i ∈ input, i < m.packages →
        (m.normalize_result result input).getD i 0 = -1)
    ∧ (∀ i, i < m.packages → i ∉ input →
        (m.normalize_result result input).getD i 0 =
          rowMean (result.getD i []))
    ∧ (∀ i ∈ highest_indices (m.normalize_result result input) mc,
        i ∉ input) := by
  set ns := m.normalize_result result input with hns
  have hnslen : ns.length = m.packages := normalize_length m result input
  have hpart1 : ∀ i ∈ input, i < m.packages → ns.getD i 0 = -1 := by
    intro i hi hilt
    rw [hns, normalize_getD m result input i hilt, if_pos hi]
  have hpart2 : ∀ i, i < m.packages → i ∉ input →
      ns.getD i 0 = rowMean (result.getD i []) := by
    intro i hilt hni
    rw [hns, normalize_getD m result input i hilt, if_neg hni]
  refine ⟨hpart1, hpart2, ?_⟩
  intro e he hein
  set s := argsort ns with hs
  have hslen : s.length = m.packages := by
    rw [hs, argsort_length, hnslen]
  have hmcn : mc ≤ m.packages := by
    have h1 := List.length_filter_le
      (fun i => !(input.contains i)) (List.range m.packages)
    have h2 := List.length_range m.packages
    omega
  have hhi : highest_indices ns mc = s.drop (s.length - mc) := by
    rw [highest_indices, lastSlice, if_neg (by omega : ¬ mc = 0), hs]
  rw [hhi] at he
  set t := s.drop (s.length - mc) with ht
  set u := s.take (s.length - mc) with hu
  have hut : u ++ t = s := List.take_append_drop _ _
  have hsorted : List.Pairwise (argLe ns) s := argsort_sorted ns
  have hpw : List.Pairwise (argLe ns) (u ++ t) := by rw [hut]; exact hsorted
  have hcross : ∀ x ∈ u, ∀ y ∈ t, argLe ns x y :=
    (List.pairwise_append.mp hpw).2.2
  have hemem : e ∈ s := by
    rw [← hut]; exact List.mem_append_right _ he
  have helt : e < m.packages := by
    have h1 : e < ns.length := (mem_argsort ns e).mp (by rw [← hs]; exact hemem)
    omega
  have hevale : ns.getD e 0 = -1 := hpart1 e hein helt
  set A := (List.range m.packages).filter
    (fun i => !(input.contains i)) with hA
  have hAmem : ∀ a ∈ A, a < m.packages ∧ a ∉ input := by
    intro a ha
    rw [hA, List.mem_filter, List.mem_range] at ha
    refine ⟨ha.1, ?_⟩
    simpa using ha.2
  have hAval : ∀ a ∈ A, (0 : ℚ) ≤ ns.getD a 0 := by
    intro a ha
    obtain ⟨h1, h2⟩ := hAmem a ha
    rw [hpart2 a h1 h2]
    apply rowMean_nonneg
    intro x hx
    have halen : a < result.length := by omega
    have hrow : result.getD a [] = result[a] := by
      rw [List.getD_eq_getElem?_getD, List.getElem?_eq_getElem halen]
      rfl
    refine hnn (result.getD a []) ?_ x hx
    rw [hrow]
    exact List.getElem_mem halen
  have hAt : ∀ a ∈ A, a ∈ t := by
    intro a ha
    have hamem : a ∈ s := by
      rw [hs, mem_argsort, hnslen]
      exact (hAmem a ha).1
    have hamem' : a ∈ u ++ t := by rw [hut]; exact hamem
    rcases List.mem_append.mp hamem' with hau | hat
    · exfalso
      have hle := hcross a hau e he
      have h0 := hAval a ha
      rw [argLe, hevale] at hle
      linarith
    · exact hat
  have hAnd : A.Nodup := List.Nodup.filter _ (List.nodup_range _)
  have hAsub : A ⊆ t.erase e := by
    intro a ha
    have hane : a ≠ e := by
      intro hae
      exact (hAmem a ha).2 (hae ▸ hein)
    exact (List.mem_erase_of_ne hane).mpr (hAt a ha)
  have hlenle : A.length ≤ (t.erase e).length :=
    (hAnd.subperm hAsub).length_le
  have htlen : t.length = mc := by
    rw [ht, List.length_drop]
    omega
  have herase : (t.erase e).length = t.length - 1 :=
    List.length_erase_of_mem he
  omega

/-- Claim C3 witness: on cModel3 with ids 1 and 2 excluded and maximum
count one, the excluded id 1 carries the sentinel and the single selected
top index is not an input id. -/
theorem C3_normalize_excludes_filter_witness :
    (cModel3.normalize_result [[1], [1], [1]] [1, 2]).getD 1 0 = -1
    ∧ ((highest_indices
        (cModel3.normalize_result [[1], [1], [1]] [1, 2]) 1).all
        (fun i => !(([1, 2] : List Nat).contains i)) = true) := by
  have h := C3_normalize_excludes_filter cModel3 [[1], [1], [1]] [1, 2] 1
    (by decide) (by rfl) (by decide) (by decide)
  refine ⟨h.1 1 (by decide) (by decide), ?_⟩
  rw [List.all_eq_true]
  intro i hi
  simpa using h.2.2 i hi

/-- Claim C10 counterexample: when the decode of the downloaded user matrix
fails, load_s3 propagates the error and the staging file
tmp user_matrix.npz is left on disk: the removal is not unconditional. -/
theorem C10_decode_failure_leaves_file :
    (load_s3 (.error .corruptModel) (.ok [])).2 = ["/tmp/user_matrix.npz"]
    ∧ (load_s3 (.error .corruptModel) (.ok [])).1 =
        .error .corruptModel :=
  ⟨rfl, rfl⟩

/-- Claim C10 amended: load_s3 removes each staging file only after its
decode succeeds; when both decodes succeed no staging file remains, and
when either decode fails the corresponding staging file is left behind. -/
theorem C10_cleanup_on_success_only (theta beta : List (List ℚ)) :
    (load_s3 (.ok theta) (.ok beta)).2 = []
    ∧ (load_s3 (.ok theta) (.error .corruptModel)).2 =
        ["/tmp/item_matrix.npz"]
    ∧ (load_s3 (.error .corruptModel) (.ok beta)).2 =
        ["/tmp/user_matrix.npz"] :=
  ⟨rfl, rfl, rfl⟩

end HPF
